import Mathlib

set_option linter.unusedVariables false

namespace Countly

/-! Shallow embedding of the audience-resolution and notification-scheduling
engine of the push plugin (plugins/push/api/send/audience.js).  Times are
milliseconds since the Unix epoch, modelled as `Int`; timezone offsets are
minutes, as returned by `getTimezoneOffset` / `utcOffset`.  Database and
plugin-api collaborators (the store executor, the geo and drill providers)
are passed in as explicit oracles. -/

/-- Content override payloads (the [Content.json] array) are opaque here. -/
abbrev Content := String

/-- A projection document such as the default uid projection. -/
abbrev Proj := List (String × Nat)

/-- JavaScript runtime errors and propagated provider failures. -/
inductive JsError where
  | typeError
  | drillError (e : String)
  deriving DecidableEq

/-- An app_user document: uid, optional stored timezone offset (minutes), and
the token map `tk` keyed by platform+field (`user[TK][this.pf]`). -/
structure AppUser where
  uid : String
  tz : Option Int
  tk : List (String × String)
  deriving DecidableEq

/-- Trigger kinds (data/const): API, Plain, Cohort, Event. -/
inductive TriggerKind where
  | api
  | plain
  | cohort
  | event
  deriving DecidableEq

/-- The trigger fields used by the mappers.  `endTime` embeds the trigger's
`end` date (renamed: `end` is reserved in Lean); `time` is the local
time-of-day offset in ms since local midnight; `delay` the spreading delay;
`sctz` the fixed offset used by timezone-aware Plain/API triggers. -/
structure Trigger where
  kind : TriggerKind
  tz : Bool
  sctz : Int
  time : Option Int
  reschedule : Bool
  delay : Option Int
  endTime : Option Int
  deriving DecidableEq

/-- State shared by the mapper hierarchy (audience.js:288-296): the app
timezone offset (`momenttz.tz(app.timezone).utcOffset()`), the message id,
the trigger and the platform / field keys. -/
structure Mapper where
  offset : Int
  messageId : String
  trigger : Trigger
  p : String
  f : String
  deriving DecidableEq

/-- Modelled from the spec: `common.db.oidWithDate` (api/utils/common, not
under src/) produces a monotonically time-ordered id seeded by the given
timestamp; the id is modelled by its timestamp seed. -/
def oidWithDate (date : Int) : Int := date

/-- The queued delivery record (the `ret` object shape of audience.js:319-330):
id seed, message reference `m`, platform `p`, field `f`, user id `u`,
token `t`, props `pr` and optional content override `c`. -/
structure DeliveryRecord where
  _id : Int
  m : String
  p : String
  f : String
  u : String
  t : Option String
  pr : Option Content
  c : Option Content
  deriving DecidableEq

/-- The user-timezone fallback in both mappers (audience.js:350, 374):
`(user.tz === undefined || user.tz === null ? this.offset || 0 : user.tz || 0) * 60000`. -/
def Mapper.utz (mp : Mapper) (user : AppUser) : Int :=
  (match user.tz with
    | none => mp.offset
    | some t => t) * 60000

/-- The object literal `ret` built by Mapper.map (audience.js:319-330). -/
def Mapper.mkRet (mp : Mapper) (user : AppUser) (date : Int) (pr c : Option Content) :
    DeliveryRecord :=
  { _id := oidWithDate date
    m := mp.messageId
    p := mp.p
    f := mp.f
    u := user.uid
    t := (user.tk.lookup (mp.p ++ mp.f))
    pr := pr
    c := c }

/-- Mapper.map (audience.js:318-332).  The body builds the record `ret`
(and conditionally sets `ret.c = c`), but its final statement is
`return c`, so the value of the call is the `c` argument, not `ret`. -/
def Mapper.map (mp : Mapper) (user : AppUser) (date : Int) (pr c : Option Content) :
    Option Content :=
  let ret := mp.mkRet user date pr c
  c

/-- The date adjustment of PlainApiMapper.map (audience.js:348-352). -/
def PlainApiMapper.d (mp : Mapper) (user : AppUser) (date : Int) : Int :=
  if mp.trigger.tz then date - mp.trigger.sctz * 60000 - mp.utz user else date

/-- PlainApiMapper.map (audience.js:347-354).  Note the call
`super.map(user, d, c)` passes three arguments to the four-argument base
method, so the base receives `pr = c` and `c = undefined`. -/
def PlainApiMapper.map (mp : Mapper) (user : AppUser) (date : Int) (c : Option Content) :
    Option Content :=
  Mapper.map mp user (PlainApiMapper.d mp user date) c none

/-- Local midnight of instant `d` on a machine whose local timezone offset is
`machineOff` minutes (the `auto.setHours(0)` ... `setMilliseconds(0)` zeroing
of audience.js:375-381, expressed arithmetically). -/
def localMidnight (d machineOff : Int) : Int :=
  let localMs := d - machineOff * 60000
  localMs - localMs % 86400000 + machineOff * 60000

/-- The candidate instant `inTz` of CohortsEventsMapper.map (audience.js:383):
local midnight of the reference date, plus the trigger's time-of-day offset
`tm`, plus the machine-local-to-UTC correction, minus the user timezone offset. -/
def CohortsEventsMapper.inTz (mp : Mapper) (user : AppUser) (d tm machineOff : Int) : Int :=
  localMidnight d machineOff + tm + machineOff * 60000 - mp.utz user

/-- The time-of-day block of CohortsEventsMapper.map (audience.js:373-395):
with a time-of-day offset, the candidate is `inTz`; if it is already past
`now`, either add one day (reschedule) or suppress; without a time-of-day
offset, the reference date itself is the candidate. -/
def CohortsEventsMapper.todCandidate (mp : Mapper) (user : AppUser)
    (date now machineOff : Int) : Option Int :=
  match mp.trigger.time with
  | some tm =>
    if CohortsEventsMapper.inTz mp user date tm machineOff < now then
      if mp.trigger.reschedule then
        some (CohortsEventsMapper.inTz mp user date tm machineOff + 24 * 60 * 60000)
      else
        none
    else
      some (CohortsEventsMapper.inTz mp user date tm machineOff)
  | none => some date

/-- The delivery instant before the expiry check: the time-of-day candidate
plus the spreading delay (audience.js:398-400). -/
def CohortsEventsMapper.preEnd (mp : Mapper) (user : AppUser)
    (date now machineOff : Int) : Option Int :=
  match CohortsEventsMapper.todCandidate mp user date now machineOff with
  | none => none
  | some d1 =>
    some (match mp.trigger.delay with
      | some dl => d1 + dl
      | none => d1)

/-- The timestamp at the `super.map` call site of CohortsEventsMapper.map:
the pre-expiry instant, suppressed when the trigger's end date is strictly
before it (audience.js:403-405). -/
def CohortsEventsMapper.mapD (mp : Mapper) (user : AppUser)
    (date now machineOff : Int) : Option Int :=
  match CohortsEventsMapper.preEnd mp user date now machineOff with
  | none => none
  | some d =>
    match mp.trigger.endTime with
    | some e => if e < d then none else some d
    | none => some d

/-- CohortsEventsMapper.map (audience.js:369-408): null in the two
suppression branches, otherwise the value of `super.map(user, d, c)` (which,
again passing three arguments, is the base method's `c` parameter, i.e.
undefined). -/
def CohortsEventsMapper.map (mp : Mapper) (user : AppUser)
    (date now machineOff : Int) (c : Option Content) : Option Content :=
  match CohortsEventsMapper.mapD mp user date now machineOff with
  | none => none
  | some d => Mapper.map mp user d c none

/-! ## Filter compilation (Audience.steps) -/

/-- The `message` sub-query of a user query (audience.js:247): a plain id
array, an inclusion or an exclusion condition. -/
inductive MsgCond where
  | arr (ids : List String)
  | inC (ids : List String)
  | ninC (ids : List String)
  deriving DecidableEq

/-- A free-form user query: the special `message` and `geo` keys, the
remaining key/value pairs, and the `invalidgeo` marker key (absent on
incoming queries, set by the compiler). -/
structure UserQuery where
  message : Option MsgCond
  geo : Option String
  rest : List (String × String)
  invalidgeo : Bool
  deriving DecidableEq

/-- `Object.keys(query).length` for a user query. -/
def UserQuery.keysCount (q : UserQuery) : Nat :=
  (match q.message with | some _ => 1 | none => 0) +
  (match q.geo with | some _ => 1 | none => 0) +
  q.rest.length +
  (if q.invalidgeo then 1 else 0)

/-- The `chr` value of a drill query object: optional inclusion and exclusion
id arrays. -/
structure ChrCond where
  inIds : Option (List String)
  ninIds : Option (List String)
  deriving DecidableEq

/-- A drill `queryObject`: the optional `chr` key plus the number of its
other keys, so that `Object.keys(queryObject).length === 1` is expressible. -/
structure QueryObject where
  chr : Option ChrCond
  otherKeysCount : Nat
  deriving DecidableEq

/-- The behavioral/drill filter body. -/
structure DrillFilter where
  queryObject : Option QueryObject
  deriving DecidableEq

/-- A message's audience filter (data/filter): geo ids, cohort ids, user
query, drill query — all independently optional. -/
structure Filter where
  geos : List String
  cohorts : List String
  user : Option UserQuery
  drill : Option DrillFilter
  deriving DecidableEq

/-- The part of a Message that audience resolution reads. -/
structure Message where
  _id : String
  platforms : List String
  filter : Filter
  deriving DecidableEq

/-- The Audience state set by its constructor (audience.js:58-62): only
`log`, `message` and `app` are assigned — in particular no `db` and no
`query` member exists. -/
structure Audience where
  message : Message
  appId : String
  deriving DecidableEq

/-- Cohort membership markers emitted for drill cohort conditions:
`'true'` for inclusion, `$exists: false` for exclusion. -/
inductive CohortMark where
  | inTrue
  | notExists
  deriving DecidableEq

/-- A compiled aggregation pipeline step. -/
inductive Step where
  | matchOrTokens (flds : List String)
  | matchOrConds (conds : List String)
  | matchCohortsTrue (keys : List String)
  | matchUidIn (uids : List String)
  | matchQuery (q : UserQuery)
  | matchDrillCohorts (pairs : List (String × CohortMark))
  | project (p : Proj)
  deriving DecidableEq

/-- The geo provider capability (spec section 6): `conds` translates a region
document into a match condition; `queryFn` embeds `geo().query(appId, geoSubquery)`,
returning candidate region documents (null and empty collapse to the empty list). -/
structure GeoApi where
  conds : String → String
  queryFn : String → Option String → List String

/-- The drill provider capability (spec section 6): `preprocessQuery` mutates
the user query in place (modelled as a function on queries); `fetchUsers` is
the outcome oracle of the asynchronous uid fetch. -/
structure DrillApi where
  preprocessQuery : UserQuery → UserQuery
  fetchUsers : Except String (List String)

/-- The environment of one `steps` invocation: optional providers, the result
of the geos collection find, the result of the push-collection find inside
filterMessage, and the platform field table. -/
structure Env where
  geoApi : Option GeoApi
  drillApi : Option DrillApi
  geosDocs : List String
  pushFindDocs : List String
  platformFields : String → List String

/-- Modelled from the spec: `fields(platforms, true)` (./platforms, not under
src/) returns the token field keys for the targeted (platform, field) pairs. -/
def fields (env : Env) (platforms : List String) : List String :=
  platforms.flatMap (fun p => (env.platformFields p).map (fun f => p ++ f))

/-- Audience.filterMessage (audience.js:250-270).  The `$in`/`$nin` branches
evaluate `this.db.ObjectID`, but the Audience constructor (audience.js:58-62)
never assigns `db` (the rest of the file uses `common.db`), so those branches
throw a TypeError; the plain-array branch runs the push-collection find. -/
def Audience.filterMessage (env : Env) (min : MsgCond) : Except JsError (List String) :=
  match min with
  | .arr _ => .ok env.pushFindDocs
  | .inC _ => .error .typeError
  | .ninC _ => .error .typeError

/-- The geos block of Audience.steps (audience.js:135-138): with geo ids and
an available geo provider, an OR over the provider conditions of the fetched
region documents; otherwise nothing. -/
def Audience.geoSteps (env : Env) (a : Audience) : List Step :=
  if a.message.filter.geos ≠ [] then
    match env.geoApi with
    | some g => [Step.matchOrConds (env.geosDocs.map g.conds)]
    | none => []
  else []

/-- The cohorts block of Audience.steps (audience.js:141-147): one AND
restriction with a truthy membership marker per cohort id. -/
def Audience.cohortSteps (a : Audience) : List Step :=
  if a.message.filter.cohorts ≠ [] then
    [Step.matchCohortsTrue (a.message.filter.cohorts.map (fun id => "chr." ++ id ++ ".in"))]
  else []

/-- The geo sub-query block of the user query (audience.js:160-172): with both
providers present, preprocess the query, resolve regions, emit an OR when any
region matched and mark the query `invalidgeo` when none did; the `geo` key is
deleted afterwards in every branch. -/
def Audience.userGeoStep (env : Env) (a : Audience) (query : UserQuery) :
    List Step × UserQuery :=
  match query.geo with
  | some _ =>
    match env.drillApi, env.geoApi with
    | some dr, some g =>
      let q1 := dr.preprocessQuery query
      let geos := g.queryFn a.appId q1.geo
      if geos ≠ [] then
        ([Step.matchOrConds (geos.map g.conds)], { q1 with geo := none })
      else
        ([], { q1 with geo := none, invalidgeo := true })
    | _, _ => ([], { query with geo := none })
  | none => ([], query)

/-- The message sub-query block of the user query (audience.js:153-158):
resolve the interaction filter, emit the uid restriction, and delete the
`message` key from the query. -/
def Audience.userMsgPart (env : Env) (query0 : UserQuery) :
    Except JsError (List Step × UserQuery) :=
  match query0.message with
  | some min =>
    match Audience.filterMessage env min with
    | .ok filtered => .ok ([Step.matchUidIn filtered], { query0 with message := none })
    | .error e => .error e
  | none => .ok ([], query0)

/-- The body of the user query block for a present user query
(audience.js:150-177): message part, then geo part, then the residual query
when it still has keys. -/
def Audience.userStepsQ (env : Env) (a : Audience) (query0 : UserQuery) :
    Except JsError (List Step) :=
  match Audience.userMsgPart env query0 with
  | .error e => .error e
  | .ok (ms, q1) =>
    let gsq := Audience.userGeoStep env a q1
    let finalStep := if gsq.2.keysCount ≠ 0 then [Step.matchQuery gsq.2] else []
    .ok (ms ++ gsq.1 ++ finalStep)

/-- The user query block of Audience.steps (audience.js:149-177). -/
def Audience.userSteps (env : Env) (a : Audience) : Except JsError (List Step) :=
  match a.message.filter.user with
  | none => .ok []
  | some query0 => Audience.userStepsQ env a query0

/-- The cohort-marker pairs built for the single-key `chr` drill shortcut
(audience.js:184-195): `$in` ids map to truthy markers, `$nin` ids to
absent markers, each guarded by a non-empty length check. -/
def chrPairs (chr : ChrCond) : List (String × CohortMark) :=
  (match chr.inIds with
    | some l => if l ≠ [] then l.map (fun id => ("chr." ++ id ++ ".in", CohortMark.inTrue)) else []
    | none => []) ++
  (match chr.ninIds with
    | some l => if l ≠ [] then l.map (fun id => ("chr." ++ id ++ ".in", CohortMark.notExists)) else []
    | none => [])

/-- The general drill path (audience.js:200-219): build the params object,
delete `params.qstring.queryObject.chr` (a TypeError when `queryObject` is
undefined), await `fetchUsers`, and emit a uid restriction; a provider
rejection propagates. -/
def Audience.drillFetch (dr : DrillApi) (df : DrillFilter) : Except JsError (List Step) :=
  match df.queryObject with
  | none => .error .typeError
  | some _ =>
    match dr.fetchUsers with
    | .ok uids => .ok [Step.matchUidIn uids]
    | .error e => .error (.drillError e)

/-- The drill block of Audience.steps (audience.js:180-221): when the drill
filter is present and the provider available, the single-key `chr` query
object takes the cohort-marker shortcut, everything else goes through
`fetchUsers`. -/
def Audience.drillStepsOf (env : Env) (a : Audience) : Except JsError (List Step) :=
  match a.message.filter.drill with
  | none => .ok []
  | some df =>
    match env.drillApi with
    | none => .ok []
    | some dr =>
      match df.queryObject with
      | some qo =>
        match qo.chr with
        | some chr =>
          if qo.otherKeysCount = 0 then
            .ok [Step.matchDrillCohorts (chrPairs chr)]
          else
            Audience.drillFetch dr df
        | none => Audience.drillFetch dr df
      | none => Audience.drillFetch dr df

/-- Audience.steps (audience.js:127-230): the token-presence OR, then the
geos, cohorts, user and drill blocks in source order, then the projection. -/
def Audience.steps (env : Env) (a : Audience) (project : Proj) :
    Except JsError (List Step) :=
  match Audience.userSteps env a with
  | .error e => .error e
  | .ok us =>
    match Audience.drillStepsOf env a with
    | .error e => .error e
    | .ok ds =>
      .ok ([Step.matchOrTokens (fields env a.message.platforms)] ++
           Audience.geoSteps env a ++ Audience.cohortSteps a ++ us ++ ds ++
           [Step.project project])

/-- A message sub-query shape whose resolution does not hit the unassigned
`this.db` (absent, or the plain id-array form). -/
def msgSafe : Option MsgCond → Bool
  | none => true
  | some (.arr _) => true
  | some _ => false

/-- The user dimension of a filter avoids the `this.db` TypeError. -/
def userPartSafe (f : Filter) : Bool :=
  match f.user with
  | none => true
  | some q => msgSafe q.message

/-! ## Audience.aggregate -/

/-- Audience defines no member named `query` (its step compiler is `steps`,
audience.js:127); `this.query` therefore resolves to undefined. -/
def Audience.queryMethod :
    Option (Env → Audience → Proj → Except JsError (List Step)) := none

/-- Audience.aggregate (audience.js:238-241): awaits `this.query(project)`
and only then runs the store aggregation; since `query` is undefined the
call throws before the store is reached. -/
def Audience.aggregate (env : Env) (a : Audience)
    (dbAggregate : List Step → List String) (project : Proj) :
    Except JsError (List String) :=
  match Audience.queryMethod with
  | none => .error .typeError
  | some q =>
    match q env a project with
    | .error e => .error e
    | .ok stps => .ok (dbAggregate stps)

/-! ## Popper.clear -/

/-- The PusherPopper state set by its constructor (audience.js:420-435):
`audience`, `trigger` (and the mappers); no `message` field is ever
assigned, so `this.message` on a Popper is undefined. -/
structure Popper where
  audience : Audience
  trigger : Trigger
  message : Option Message

/-- Audience.pop (audience.js:95-97): `new Popper(this, trigger)`. -/
def Audience.pop (a : Audience) (trigger : Trigger) : Popper :=
  { audience := a, trigger := trigger, message := none }

/-- The observable effect of a successful clear: the `$inc` update entries in
insertion order and the returned total. -/
structure ClearResult where
  update : List (String × Nat)
  total : Nat
  deriving DecidableEq

/-- Popper.clear (audience.js:564-586).  The body starts with
`this.message.platforms` — but no `message` field exists on the popper (the
message lives at `this.audience.message`), so the very first access throws.
The remainder embeds the intended flow: deleteMany per platform, one `$inc`
update accumulating `result.processed` and the per-index cancelled counters,
and the summed deleted count as return value. -/
def Popper.clear (deleteMany : String → String → Nat) (pop : Popper) :
    Except JsError ClearResult :=
  match pop.message with
  | none => .error .typeError
  | some msg =>
    let deleted := msg.platforms.map (fun p => deleteMany msg._id p)
    let update :=
      if deleted.length = 0 then []
      else
        [("result.processed", deleted.sum)] ++
        (List.range deleted.length).map
          (fun i => ("result.errors." ++ toString i ++ ".cancelled", deleted.getD i 0))
    .ok { update := update, total := deleted.sum }

/-! ## The queue writer and the SchedulePusher insertion loop -/

/-- Modelled from the spec: `Push.batchInsert` (data/message, not under src/)
returns a batch writer that buffers records up to the configured batch size,
tracks the running total of records ever accepted, and durably appends the
buffered batch on flush.  `flushedBatches` records the flushed batches in
FIFO order. -/
structure Batch where
  batchSize : Nat
  buffer : List DeliveryRecord
  total : Nat
  flushedBatches : List (List DeliveryRecord)
  deriving DecidableEq

/-- Modelled from the spec: the fresh batch writer of `Push.batchInsert`. -/
def Push.batchInsert (batchSize : Nat) : Batch :=
  { batchSize := batchSize, buffer := [], total := 0, flushedBatches := [] }

/-- Modelled from the spec: `pushSync` buffers one record, counts it in the
running total, and reports whether the caller must flush (the buffer reached
the batch size). -/
def Batch.pushSync (b : Batch) (r : DeliveryRecord) : Batch × Bool :=
  let buf := b.buffer ++ [r]
  ({ b with buffer := buf, total := b.total + 1 }, buf.length = b.batchSize)

/-- Modelled from the spec: `flush` durably appends the buffered batch and
clears the buffer. -/
def Batch.flush (b : Batch) : Batch :=
  { b with flushedBatches := b.flushedBatches ++ [b.buffer], buffer := [] }

/-- One iteration of the SchedulePusher insertion loop (audience.js:523-526)
for an accepted record: pushSync it and flush when the writer signals a full
batch; the second component counts the full-batch signals observed. -/
def SchedulePusher.writeStep (st : Batch × Nat) (r : DeliveryRecord) : Batch × Nat :=
  let pr := Batch.pushSync st.1 r
  if pr.2 then (Batch.flush pr.1, st.2 + 1) else (pr.1, st.2)

/-- The SchedulePusher insertion loop (audience.js:511-531) restricted to the
sequence of accepted records: start from a fresh batch writer, run the
push/flush discipline over the stream, and flush the final partial batch
after the stream is exhausted. -/
def SchedulePusher.writeLoop (batchSize : Nat) (records : List DeliveryRecord) :
    Batch × Nat :=
  let st := records.foldl SchedulePusher.writeStep (Push.batchInsert batchSize, 0)
  (Batch.flush st.1, st.2)

/-! ## Concrete fixtures used by witnesses and counterexamples -/

/-- A user with no stored timezone and one token. -/
def userEx : AppUser := { uid := "u1", tz := none, tk := [("ap", "tok1")] }

/-- A Cohort trigger with a 09:00 time-of-day offset and rescheduling off. -/
def trigC2 : Trigger :=
  { kind := .cohort, tz := false, sctz := 0, time := some 32400000,
    reschedule := false, delay := none, endTime := none }

/-- The mapper state for `trigC2` in a UTC app. -/
def mpC2 : Mapper := { offset := 0, messageId := "m1", trigger := trigC2, p := "a", f := "p" }

/-- A Cohort trigger with a 09:00 time-of-day offset, rescheduling on and a
5 second spreading delay. -/
def trigC3 : Trigger :=
  { kind := .cohort, tz := false, sctz := 0, time := some 32400000,
    reschedule := true, delay := some 5000, endTime := none }

/-- The mapper state for `trigC3` in a UTC app. -/
def mpC3 : Mapper := { offset := 0, messageId := "m1", trigger := trigC3, p := "a", f := "p" }

/-- A Plain trigger without the timezone flag. -/
def trigC1 : Trigger :=
  { kind := .plain, tz := false, sctz := 0, time := none,
    reschedule := false, delay := none, endTime := none }

/-- The mapper state for `trigC1`. -/
def mpC1 : Mapper := { offset := 0, messageId := "m1", trigger := trigC1, p := "a", f := "p" }

/-- An expired Event trigger without a time-of-day offset. -/
def trigC4 : Trigger :=
  { kind := .event, tz := false, sctz := 0, time := none,
    reschedule := false, delay := none, endTime := some 999 }

/-- The mapper state for `trigC4`. -/
def mpC4 : Mapper := { offset := 0, messageId := "m1", trigger := trigC4, p := "a", f := "p" }

/-- An environment with no providers and one platform field. -/
def envC5 : Env :=
  { geoApi := none, drillApi := none, geosDocs := [], pushFindDocs := [],
    platformFields := fun _ => ["p"] }

/-- An audience whose message has an entirely empty filter. -/
def audC5 : Audience :=
  { message := { _id := "m1", platforms := ["a"],
                 filter := { geos := [], cohorts := [], user := none, drill := none } },
    appId := "app1" }

/-- A drill provider whose fetchUsers oracle fails. -/
def drC6 : DrillApi := { preprocessQuery := fun q => q, fetchUsers := .error "boom" }

/-- An environment with the failing drill provider installed. -/
def envC6 : Env :=
  { geoApi := none, drillApi := some drC6, geosDocs := [], pushFindDocs := [],
    platformFields := fun _ => ["p"] }

/-- The drill filter body that is exactly a single-key cohort inclusion. -/
def dfC6 : DrillFilter :=
  { queryObject := some { chr := some { inIds := some ["c1", "c2"], ninIds := none },
                          otherKeysCount := 0 } }

/-- An audience whose only filter dimension is the single-chr drill filter. -/
def audC6 : Audience :=
  { message := { _id := "m1", platforms := ["a"],
                 filter := { geos := [], cohorts := [], user := none, drill := some dfC6 } },
    appId := "app1" }

/-- A geo provider that resolves zero candidate regions for every sub-query. -/
def geoApiC7 : GeoApi := { conds := fun _ => "cond", queryFn := fun _ _ => [] }

/-- A drill provider whose preprocess is the identity. -/
def drC7 : DrillApi := { preprocessQuery := fun q => q, fetchUsers := .ok [] }

/-- An environment with both providers available and zero-region geo results. -/
def envC7 : Env :=
  { geoApi := some geoApiC7, drillApi := some drC7, geosDocs := [], pushFindDocs := [],
    platformFields := fun _ => ["p"] }

/-- A user query embedding a geo sub-query and an `$in` message sub-query. -/
def qC7bad : UserQuery :=
  { message := some (.inC ["m1"]), geo := some "g", rest := [], invalidgeo := false }

/-- An audience whose user query is `qC7bad`. -/
def audC7bad : Audience :=
  { message := { _id := "m1", platforms := ["a"],
                 filter := { geos := [], cohorts := [], user := some qC7bad, drill := none } },
    appId := "app1" }

/-- A user query embedding only a geo sub-query. -/
def qC7ok : UserQuery :=
  { message := none, geo := some "g", rest := [], invalidgeo := false }

/-- An audience whose user query is `qC7ok`. -/
def audC7ok : Audience :=
  { message := { _id := "m1", platforms := ["a"],
                 filter := { geos := [], cohorts := [], user := some qC7ok, drill := none } },
    appId := "app1" }

/-- A concrete delivery record for the queue-writer witness. -/
def recEx (n : Int) : DeliveryRecord :=
  { _id := n, m := "m1", p := "a", f := "p", u := "u1", t := none, pr := none, c := none }

/-! ## Theorems -/

/-- C1: the Immediate (Plain/API) mapper's map is claimed to always return a
delivery record of the persisted shape.  On the code it never does:
Mapper.map ends with `return c` instead of `return ret`, and the subclass
passes only three arguments to the four-parameter base method, so the base's
`c` is undefined and every call returns undefined — no record at all, for
every user, nominal date and content override. -/
theorem plainApiMapper_map_never_returns_record
    (mp : Mapper) (user : AppUser) (date : Int) (c : Option Content) :
    PlainApiMapper.map mp user date c = none := rfl

/-- C2: for an Anchored (Cohort/Event) trigger with a time-of-day offset whose
computed local-time candidate is earlier than now and whose reschedule flag is
disabled, map returns no record at all: the date computation suppresses
(mapD is none) and the call returns null. -/
theorem cohortsEventsMapper_past_no_reschedule_suppresses
    (mp : Mapper) (user : AppUser) (date now machineOff : Int) (c : Option Content)
    (tm : Int)
    (htime : mp.trigger.time = some tm)
    (hpast : CohortsEventsMapper.inTz mp user date tm machineOff < now)
    (hres : mp.trigger.reschedule = false) :
    CohortsEventsMapper.mapD mp user date now machineOff = none ∧
    CohortsEventsMapper.map mp user date now machineOff c = none := by
  have hc : CohortsEventsMapper.todCandidate mp user date now machineOff = none := by
    unfold CohortsEventsMapper.todCandidate
    rw [htime]
    simp [hpast, hres]
  have hp : CohortsEventsMapper.preEnd mp user date now machineOff = none := by
    unfold CohortsEventsMapper.preEnd
    rw [hc]
  have hd : CohortsEventsMapper.mapD mp user date now machineOff = none := by
    unfold CohortsEventsMapper.mapD
    rw [hp]
  refine ⟨hd, ?_⟩
  unfold CohortsEventsMapper.map
  rw [hd]

/-- C2 witness: a concrete Cohort trigger at 09:00 with rescheduling off, a
UTC machine and a reference date whose 09:00 instant is already past now. -/
theorem cohortsEventsMapper_past_no_reschedule_suppresses_witness :
    mpC2.trigger.time = some 32400000 ∧
    CohortsEventsMapper.inTz mpC2 userEx 1700000000000 32400000 0 < 1700000000000 ∧
    mpC2.trigger.reschedule = false ∧
    (CohortsEventsMapper.mapD mpC2 userEx 1700000000000 1700000000000 0 = none ∧
     CohortsEventsMapper.map mpC2 userEx 1700000000000 1700000000000 0 none = none) :=
  ⟨rfl, by decide, rfl,
    cohortsEventsMapper_past_no_reschedule_suppresses mpC2 userEx 1700000000000 1700000000000
      0 none 32400000 rfl (by decide) rfl⟩

/-- C3: with rescheduling enabled and a past candidate, the code does compute
the timestamp as the candidate plus exactly one day plus the spreading delay
(mapD below), and seeds the constructed record with it — but map returns no
record carrying that timestamp (it returns the base method's undefined `c`
parameter), at this concrete input and in fact always. -/
theorem cohortsEventsMapper_reschedules_day_but_returns_no_record :
    CohortsEventsMapper.mapD mpC3 userEx 1700000000000 1700000000000 0 =
      some (CohortsEventsMapper.inTz mpC3 userEx 1700000000000 32400000 0
            + 24 * 60 * 60000 + 5000) ∧
    (∀ c : Option Content,
      CohortsEventsMapper.map mpC3 userEx 1700000000000 1700000000000 0 c = none) := by
  refine ⟨by decide, ?_⟩
  intro c
  rfl

/-- C4: for an Anchored trigger whose expiry is strictly earlier than the
final computed delivery instant (time-of-day adjustment, any one-day
reschedule and the spreading delay included, i.e. preEnd), map produces no
record, whatever the reschedule flag. -/
theorem cohortsEventsMapper_expired_suppresses
    (mp : Mapper) (user : AppUser) (date now machineOff : Int) (c : Option Content)
    (d e : Int)
    (hpre : CohortsEventsMapper.preEnd mp user date now machineOff = some d)
    (hend : mp.trigger.endTime = some e)
    (hlt : e < d) :
    CohortsEventsMapper.mapD mp user date now machineOff = none ∧
    CohortsEventsMapper.map mp user date now machineOff c = none := by
  have hd : CohortsEventsMapper.mapD mp user date now machineOff = none := by
    unfold CohortsEventsMapper.mapD
    rw [hpre, hend]
    simp [hlt]
  refine ⟨hd, ?_⟩
  unfold CohortsEventsMapper.map
  rw [hd]

/-- C4 witness: an Event trigger expiring at 999 with a reference date of
2000 and no time-of-day offset. -/
theorem cohortsEventsMapper_expired_suppresses_witness :
    CohortsEventsMapper.preEnd mpC4 userEx 2000 0 0 = some 2000 ∧
    mpC4.trigger.endTime = some 999 ∧
    (999 : Int) < 2000 ∧
    (CohortsEventsMapper.mapD mpC4 userEx 2000 0 0 = none ∧
     CohortsEventsMapper.map mpC4 userEx 2000 0 0 none = none) :=
  ⟨by decide, rfl, by decide,
    cohortsEventsMapper_expired_suppresses mpC4 userEx 2000 0 0 none 2000 999
      (by decide) rfl (by decide)⟩

/-- C5: with every filter dimension empty, the compiled pipeline is exactly
the token-presence OR over the targeted (platform, field) pairs followed by
the final projection — no other restriction is emitted. -/
theorem steps_empty_filter (env : Env) (a : Audience) (project : Proj)
    (hg : a.message.filter.geos = []) (hc : a.message.filter.cohorts = [])
    (hu : a.message.filter.user = none) (hd : a.message.filter.drill = none) :
    Audience.steps env a project =
      .ok [Step.matchOrTokens (fields env a.message.platforms), Step.project project] := by
  have h1 : Audience.userSteps env a = .ok [] := by
    unfold Audience.userSteps
    rw [hu]
  have h2 : Audience.drillStepsOf env a = .ok [] := by
    unfold Audience.drillStepsOf
    rw [hd]
  have h3 : Audience.geoSteps env a = [] := by
    unfold Audience.geoSteps
    rw [hg]
    simp
  have h4 : Audience.cohortSteps a = [] := by
    unfold Audience.cohortSteps
    rw [hc]
    simp
  unfold Audience.steps
  rw [h1, h2, h3, h4]
  simp

/-- C5 witness: a concrete message with an entirely empty filter compiles to
the two-step pipeline. -/
theorem steps_empty_filter_witness :
    audC5.message.filter.geos = [] ∧ audC5.message.filter.cohorts = [] ∧
    audC5.message.filter.user = none ∧ audC5.message.filter.drill = none ∧
    Audience.steps envC5 audC5 [("uid", 1)] =
      .ok [Step.matchOrTokens (fields envC5 audC5.message.platforms),
           Step.project [("uid", 1)]] :=
  ⟨rfl, rfl, rfl, rfl, steps_empty_filter envC5 audC5 [("uid", 1)] rfl rfl rfl rfl⟩

/-- Reduction of the user block when a user query is present. -/
theorem userSteps_some (env : Env) (a : Audience) (q : UserQuery)
    (hu : a.message.filter.user = some q) :
    Audience.userSteps env a = Audience.userStepsQ env a q := by
  unfold Audience.userSteps
  rw [hu]

/-- Reduction of the user block body once the message part is resolved. -/
theorem userStepsQ_eq (env : Env) (a : Audience) (q0 : UserQuery)
    (ms : List Step) (q1 : UserQuery)
    (h : Audience.userMsgPart env q0 = .ok (ms, q1)) :
    Audience.userStepsQ env a q0 =
      .ok (ms ++ (Audience.userGeoStep env a q1).1 ++
        (if (Audience.userGeoStep env a q1).2.keysCount ≠ 0
         then [Step.matchQuery (Audience.userGeoStep env a q1).2] else [])) := by
  unfold Audience.userStepsQ
  rw [h]

/-- When the user query dimension avoids the unassigned `this.db` (message
sub-query absent or array-shaped), the message part of the user block
succeeds. -/
theorem userMsgPart_ok_of_safe (env : Env) (q : UserQuery)
    (h : msgSafe q.message = true) :
    ∃ ms q1, Audience.userMsgPart env q = .ok (ms, q1) := by
  cases hm : q.message with
  | none =>
    refine ⟨[], q, ?_⟩
    unfold Audience.userMsgPart
    rw [hm]
  | some mc =>
    rw [hm] at h
    cases mc with
    | arr ids =>
      refine ⟨[Step.matchUidIn env.pushFindDocs], { q with message := none }, ?_⟩
      unfold Audience.userMsgPart
      rw [hm]
      rfl
    | inC ids => simp [msgSafe] at h
    | ninC ids => simp [msgSafe] at h

/-- When the user query dimension avoids the unassigned `this.db` (message
sub-query absent or array-shaped), the user block of steps succeeds. -/
theorem userSteps_ok_of_safe (env : Env) (a : Audience)
    (h : userPartSafe a.message.filter = true) :
    ∃ us, Audience.userSteps env a = .ok us := by
  cases hu : a.message.filter.user with
  | none =>
    refine ⟨[], ?_⟩
    unfold Audience.userSteps
    rw [hu]
  | some q =>
    have h2 : msgSafe q.message = true := by
      unfold userPartSafe at h
      rw [hu] at h
      exact h
    obtain ⟨ms, q1, hmp⟩ := userMsgPart_ok_of_safe env q h2
    exact ⟨_, by rw [userSteps_some env a q hu, userStepsQ_eq env a q ms q1 hmp]⟩

/-- The single-key `$in` cohort shortcut pairs are the truthy markers of the
listed cohort ids, in order. -/
theorem chrPairs_in_only (ids : List String) :
    chrPairs { inIds := some ids, ninIds := none } =
      ids.map (fun id => ("chr." ++ id ++ ".in", CohortMark.inTrue)) := by
  unfold chrPairs
  cases ids with
  | nil => simp
  | cons x xs => simp

/-- C6: a behavioral filter whose body is exactly a single-key cohort
inclusion expression compiles to a restriction carrying the truthy
cohort-membership marker for every listed id, and the drill provider's
fetchUsers is never invoked: compilation succeeds even though the provider's
fetch oracle is a failure. -/
theorem steps_single_chr_cohort_shortcut
    (env : Env) (a : Audience) (project : Proj) (ids : List String) (dr : DrillApi)
    (err : String)
    (hsafe : userPartSafe a.message.filter = true)
    (hdrill : a.message.filter.drill = some
      { queryObject := some { chr := some { inIds := some ids, ninIds := none },
                              otherKeysCount := 0 } })
    (hdr : env.drillApi = some dr)
    (hfetch : dr.fetchUsers = .error err) :
    ∃ l, Audience.steps env a project = .ok l ∧
      Step.matchDrillCohorts
        (ids.map (fun id => ("chr." ++ id ++ ".in", CohortMark.inTrue))) ∈ l := by
  obtain ⟨us, hus⟩ := userSteps_ok_of_safe env a hsafe
  have hds : Audience.drillStepsOf env a = .ok [Step.matchDrillCohorts
      (ids.map (fun id => ("chr." ++ id ++ ".in", CohortMark.inTrue)))] := by
    unfold Audience.drillStepsOf
    rw [hdrill, hdr]
    simp [chrPairs_in_only]
  refine ⟨[Step.matchOrTokens (fields env a.message.platforms)] ++
      Audience.geoSteps env a ++ Audience.cohortSteps a ++ us ++
      [Step.matchDrillCohorts (ids.map (fun id => ("chr." ++ id ++ ".in", CohortMark.inTrue)))] ++
      [Step.project project], ?_, ?_⟩
  · unfold Audience.steps
    rw [hus, hds]
  · simp

/-- C6 witness: the concrete filter body with cohorts c1 and c2 and a drill
provider whose fetch oracle fails. -/
theorem steps_single_chr_cohort_shortcut_witness :
    userPartSafe audC6.message.filter = true ∧
    envC6.drillApi = some drC6 ∧
    drC6.fetchUsers = .error "boom" ∧
    ∃ l, Audience.steps envC6 audC6 [("uid", 1)] = .ok l ∧
      Step.matchDrillCohorts
        ((["c1", "c2"]).map (fun id => ("chr." ++ id ++ ".in", CohortMark.inTrue))) ∈ l :=
  ⟨rfl, rfl, rfl,
    steps_single_chr_cohort_shortcut envC6 audC6 [("uid", 1)] ["c1", "c2"] drC6 "boom"
      rfl rfl rfl rfl⟩

/-- C7 counterexample: a user query embedding a geo sub-query together with an
`$in` message sub-query, with both providers available and the geo provider
resolving zero regions — step compilation fails with a TypeError (the message
sub-query resolution dereferences the unassigned `this.db`), instead of
marking the query `invalidgeo`. -/
theorem steps_invalidgeo_counterexample :
    Audience.steps envC7 audC7bad [("uid", 1)] = .error JsError.typeError := rfl

/-- The zero-region branch of the user geo block: both providers present and
no candidate region resolved yields no step, the preprocessed query marked
`invalidgeo` and its geo key removed. -/
theorem userGeoStep_zero (env : Env) (a : Audience) (q1 : UserQuery) (g : String)
    (dr : DrillApi) (gapi : GeoApi)
    (hgeo : q1.geo = some g) (hdr : env.drillApi = some dr)
    (hga : env.geoApi = some gapi)
    (hzero : ∀ appId gq, gapi.queryFn appId gq = []) :
    Audience.userGeoStep env a q1 =
      ([], { dr.preprocessQuery q1 with geo := none, invalidgeo := true }) := by
  unfold Audience.userGeoStep
  rw [hgeo, hdr, hga]
  simp [hzero]

/-- A query marked `invalidgeo` always has at least one key. -/
theorem keysCount_ne_zero_of_invalidgeo (q : UserQuery) (h : q.invalidgeo = true) :
    q.keysCount ≠ 0 := by
  unfold UserQuery.keysCount
  rw [h]
  simp

/-- C7 (amended): for user queries embedding a geo sub-query and no
`$in`/`$nin`-shaped message sub-query, the geo key is removed from the query
in every branch of the geo block (whatever the providers or regions), and
when both providers are available and the geo provider resolves zero
candidate regions, compilation succeeds and emits the residual query marked
`invalidgeo` with its geo key removed. -/
theorem steps_invalidgeo_amended
    (env : Env) (a : Audience) (project : Proj) (q : UserQuery) (g : String)
    (dr : DrillApi) (gapi : GeoApi)
    (huser : a.message.filter.user = some q)
    (hmsg : msgSafe q.message = true)
    (hgeo : q.geo = some g)
    (hdrill : a.message.filter.drill = none)
    (hdr : env.drillApi = some dr)
    (hga : env.geoApi = some gapi)
    (hzero : ∀ appId gq, gapi.queryFn appId gq = []) :
    (∀ (env2 : Env) (a2 : Audience) (q2 : UserQuery),
       ((Audience.userGeoStep env2 a2 q2).2).geo = none ∨ q2.geo = none) ∧
    (∃ l q3, Audience.steps env a project = .ok l ∧ Step.matchQuery q3 ∈ l ∧
       q3.invalidgeo = true ∧ q3.geo = none) := by
  have hds : Audience.drillStepsOf env a = .ok [] := by
    unfold Audience.drillStepsOf
    rw [hdrill]
  constructor
  · intro env2 a2 q2
    unfold Audience.userGeoStep
    cases hq : q2.geo with
    | none => exact Or.inr rfl
    | some g2 =>
      left
      cases hda : env2.drillApi with
      | none => simp
      | some dr2 =>
        cases hga2 : env2.geoApi with
        | none => simp
        | some gapi2 =>
          by_cases hne : gapi2.queryFn a2.appId ((dr2.preprocessQuery q2).geo) ≠ []
          · simp [hne]
          · simp [hne]
  · cases hm : q.message with
    | none =>
      have hmp : Audience.userMsgPart env q = .ok ([], q) := by
        unfold Audience.userMsgPart
        rw [hm]
      have hus : Audience.userSteps env a =
          .ok ([] ++ [] ++ [Step.matchQuery
            { dr.preprocessQuery q with geo := none, invalidgeo := true }]) := by
        rw [userSteps_some env a q huser, userStepsQ_eq env a q [] q hmp,
          userGeoStep_zero env a q g dr gapi hgeo hdr hga hzero]
        simp [keysCount_ne_zero_of_invalidgeo
          ({ dr.preprocessQuery q with geo := none, invalidgeo := true }) rfl]
      have hsteps : Audience.steps env a project = .ok
          ([Step.matchOrTokens (fields env a.message.platforms)] ++
           Audience.geoSteps env a ++ Audience.cohortSteps a ++
           ([] ++ [] ++ [Step.matchQuery
             { dr.preprocessQuery q with geo := none, invalidgeo := true }]) ++
           [] ++ [Step.project project]) := by
        unfold Audience.steps
        rw [hus, hds]
      exact ⟨_, { dr.preprocessQuery q with geo := none, invalidgeo := true },
        hsteps, by simp, rfl, rfl⟩
    | some mc =>
      cases mc with
      | inC ids => rw [hm] at hmsg; simp [msgSafe] at hmsg
      | ninC ids => rw [hm] at hmsg; simp [msgSafe] at hmsg
      | arr ids =>
        have hgeo1 : ({ q with message := none } : UserQuery).geo = some g := hgeo
        have hmp : Audience.userMsgPart env q =
            .ok ([Step.matchUidIn env.pushFindDocs], { q with message := none }) := by
          unfold Audience.userMsgPart
          rw [hm]
          rfl
        have hus : Audience.userSteps env a =
            .ok ([Step.matchUidIn env.pushFindDocs] ++ [] ++ [Step.matchQuery
              { dr.preprocessQuery { q with message := none } with
                geo := none, invalidgeo := true }]) := by
          rw [userSteps_some env a q huser,
            userStepsQ_eq env a q [Step.matchUidIn env.pushFindDocs]
              { q with message := none } hmp,
            userGeoStep_zero env a { q with message := none } g dr gapi hgeo1 hdr hga hzero]
          simp [keysCount_ne_zero_of_invalidgeo
            ({ dr.preprocessQuery { q with message := none } with
               geo := none, invalidgeo := true }) rfl]
        have hsteps : Audience.steps env a project = .ok
            ([Step.matchOrTokens (fields env a.message.platforms)] ++
             Audience.geoSteps env a ++ Audience.cohortSteps a ++
             ([Step.matchUidIn env.pushFindDocs] ++ [] ++ [Step.matchQuery
               { dr.preprocessQuery { q with message := none } with
                 geo := none, invalidgeo := true }]) ++
             [] ++ [Step.project project]) := by
          unfold Audience.steps
          rw [hus, hds]
        exact ⟨_, { dr.preprocessQuery { q with message := none } with
                    geo := none, invalidgeo := true },
          hsteps, by simp, rfl, rfl⟩

/-- C7 witness: the concrete zero-region scenario with identity preprocess. -/
theorem steps_invalidgeo_amended_witness :
    audC7ok.message.filter.user = some qC7ok ∧
    msgSafe qC7ok.message = true ∧
    qC7ok.geo = some "g" ∧
    audC7ok.message.filter.drill = none ∧
    envC7.drillApi = some drC7 ∧
    envC7.geoApi = some geoApiC7 ∧
    ((∀ (env2 : Env) (a2 : Audience) (q2 : UserQuery),
        ((Audience.userGeoStep env2 a2 q2).2).geo = none ∨ q2.geo = none) ∧
     (∃ l q3, Audience.steps envC7 audC7ok [("uid", 1)] = .ok l ∧
        Step.matchQuery q3 ∈ l ∧ q3.invalidgeo = true ∧ q3.geo = none)) :=
  ⟨rfl, rfl, rfl, rfl, rfl, rfl,
    steps_invalidgeo_amended envC7 audC7ok [("uid", 1)] qC7ok "g" drC7 geoApiC7
      rfl rfl rfl rfl rfl rfl (fun _ _ => rfl)⟩

/-- C8: clear is claimed to delete the queued records and return the deleted
total, but every Popper built by the constructor (Audience.pop) has no
`message` field, so `this.message.platforms` throws a TypeError immediately:
clear fails for every audience, trigger and store state, deleting nothing
and returning no count. -/
theorem popper_clear_throws (deleteMany : String → String → Nat)
    (a : Audience) (tr : Trigger) :
    Popper.clear deleteMany (Audience.pop a tr) = .error JsError.typeError := rfl

/-- C10: aggregate delegates to `this.query`, which is not defined on the
Audience class (its step compiler is named steps), so for every environment,
audience, store executor and projection it raises a TypeError without ever
invoking the store. -/
theorem audience_aggregate_always_errors (env : Env) (a : Audience)
    (dbAggregate : List Step → List String) (project : Proj) :
    Audience.aggregate env a dbAggregate project = .error JsError.typeError := rfl

/-- Invariant of the insertion loop fold: starting from a batch whose buffer
is strictly below the batch size, the fold preserves the batch size, leaves
`(initial + pushed) mod B` records buffered, signals `(initial + pushed) / B`
additional full batches, counts every pushed record in the running total,
and persists-or-buffers every record in FIFO order. -/
theorem writeFold_spec (B : Nat) (hB : 0 < B) :
    ∀ (rs : List DeliveryRecord) (b : Batch) (sg : Nat),
      b.batchSize = B → b.buffer.length < B →
      (rs.foldl SchedulePusher.writeStep (b, sg)).1.batchSize = B ∧
      (rs.foldl SchedulePusher.writeStep (b, sg)).1.buffer.length
        = (b.buffer.length + rs.length) % B ∧
      (rs.foldl SchedulePusher.writeStep (b, sg)).2
        = sg + (b.buffer.length + rs.length) / B ∧
      (rs.foldl SchedulePusher.writeStep (b, sg)).1.total = b.total + rs.length ∧
      (rs.foldl SchedulePusher.writeStep (b, sg)).1.flushedBatches.flatten ++
          (rs.foldl SchedulePusher.writeStep (b, sg)).1.buffer
        = b.flushedBatches.flatten ++ b.buffer ++ rs := by
  intro rs
  induction rs with
  | nil =>
    intro b sg hBS hlt
    refine ⟨hBS, ?_, ?_, ?_, ?_⟩
    · simp [Nat.mod_eq_of_lt hlt]
    · simp [Nat.div_eq_of_lt hlt]
    · simp
    · simp
  | cons r rs ih =>
    intro b sg hBS hlt
    by_cases h : b.buffer.length + 1 = B
    · have hstep : SchedulePusher.writeStep (b, sg) r =
          ({ batchSize := b.batchSize, buffer := [], total := b.total + 1,
             flushedBatches := b.flushedBatches ++ [b.buffer ++ [r]] }, sg + 1) := by
        unfold SchedulePusher.writeStep Batch.pushSync Batch.flush
        simp [hBS, h]
      rw [List.foldl_cons, hstep]
      obtain ⟨ih1, ih2, ih3, ih4, ih5⟩ :=
        ih { batchSize := b.batchSize, buffer := [], total := b.total + 1,
             flushedBatches := b.flushedBatches ++ [b.buffer ++ [r]] } (sg + 1) hBS
          (by simpa using hB)
      have hcn : b.buffer.length + (r :: rs).length = B + rs.length := by
        simp only [List.length_cons]
        omega
      have hdivB : (B + rs.length) / B = rs.length / B + 1 := by
        rw [Nat.add_comm]
        exact Nat.add_div_right _ hB
      refine ⟨ih1, ?_, ?_, ?_, ?_⟩
      · rw [ih2, hcn, Nat.add_mod_left]
        simp
      · rw [ih3, hcn, hdivB]
        simp
        omega
      · rw [ih4]
        simp
        omega
      · rw [ih5]
        simp [List.append_assoc]
    · have hlt1 : (b.buffer ++ [r]).length < B := by
        simp only [List.length_append, List.length_singleton]
        omega
      have hstep : SchedulePusher.writeStep (b, sg) r =
          ({ batchSize := b.batchSize, buffer := b.buffer ++ [r], total := b.total + 1,
             flushedBatches := b.flushedBatches }, sg) := by
        unfold SchedulePusher.writeStep Batch.pushSync
        simp [hBS, h]
      rw [List.foldl_cons, hstep]
      obtain ⟨ih1, ih2, ih3, ih4, ih5⟩ :=
        ih { batchSize := b.batchSize, buffer := b.buffer ++ [r], total := b.total + 1,
             flushedBatches := b.flushedBatches } sg hBS hlt1
      refine ⟨ih1, ?_, ?_, ?_, ?_⟩
      · rw [ih2]
        simp
        ring_nf
      · rw [ih3]
        simp
        ring_nf
      · rw [ih4]
        simp
        omega
      · rw [ih5]
        simp [List.append_assoc]

/-- C9: feeding any sequence of accepted records through the SchedulePusher
push/flush discipline signals a full-batch flush exactly floor(N/B) times,
the final flush after stream exhaustion leaves nothing buffered and everything
persisted in order, and the cumulative accepted total equals N. -/
theorem schedulePusher_writeLoop_spec (B : Nat) (records : List DeliveryRecord)
    (hB : 0 < B) :
    (SchedulePusher.writeLoop B records).2 = records.length / B ∧
    ((SchedulePusher.writeLoop B records).1).flushedBatches.flatten = records ∧
    ((SchedulePusher.writeLoop B records).1).total = records.length ∧
    ((SchedulePusher.writeLoop B records).1).buffer = [] := by
  obtain ⟨h1, h2, h3, h4, h5⟩ :=
    writeFold_spec B hB records (Push.batchInsert B) 0 rfl (by simpa using hB)
  unfold SchedulePusher.writeLoop
  refine ⟨?_, ?_, ?_, rfl⟩
  · rw [h3]
    simp [Push.batchInsert]
  · unfold Batch.flush
    simp only [List.flatten_append]
    simp only [Push.batchInsert, List.flatten_nil, List.flatten_cons,
      List.nil_append, List.append_nil, List.flatten] at h5 ⊢
    simpa using h5
  · unfold Batch.flush
    simpa [Push.batchInsert] using h4

/-- C9 witness: three records with batch size two produce one full-batch
signal, persist all three records across the flushes, and count three. -/
theorem schedulePusher_writeLoop_spec_witness :
    0 < 2 ∧
    ((SchedulePusher.writeLoop 2 [recEx 1, recEx 2, recEx 3]).2
        = ([recEx 1, recEx 2, recEx 3]).length / 2 ∧
     ((SchedulePusher.writeLoop 2 [recEx 1, recEx 2, recEx 3]).1).flushedBatches.flatten
        = [recEx 1, recEx 2, recEx 3] ∧
     ((SchedulePusher.writeLoop 2 [recEx 1, recEx 2, recEx 3]).1).total
        = ([recEx 1, recEx 2, recEx 3]).length ∧
     ((SchedulePusher.writeLoop 2 [recEx 1, recEx 2, recEx 3]).1).buffer = []) :=
  ⟨by decide, schedulePusher_writeLoop_spec 2 [recEx 1, recEx 2, recEx 3] (by decide)⟩

end Countly
